import Mathlib

/-!
Shallow embedding of the wifi ring buffer simulator (src/shared.h, src/host.c,
src/chip_emulator.c): a HOST driver and a CHIP emulator exchange 2-byte
little-endian length-prefixed frames through two 4096-byte shared-memory rings
(TX: HOST to CHIP, RX: CHIP to HOST), coordinated through a seven-slot
register file.  Ring buffers are modelled as total functions from raw byte
index to byte value; machine integers are Nat with explicit reductions modulo
2^8, 2^16 and 2^32 where the C performs fixed-width arithmetic.  A store at a
raw index at or beyond the ring size models the C code writing past the end of
the ring region (such a byte is never seen by any ring read, which only uses
indices below the ring size).
-/

/-- The constant TX_BUFFER_SIZE from shared.h line 14. -/
def TX_BUFFER_SIZE : Nat := 4096

/-- The constant RX_BUFFER_SIZE from shared.h line 15. -/
def RX_BUFFER_SIZE : Nat := 4096

/-- The constant TX_LOW_WATERMARK_THRESHOLD = TX_BUFFER_SIZE / 4 (shared.h line 23). -/
def TX_LOW_WATERMARK_THRESHOLD : Nat := TX_BUFFER_SIZE / 4

/-- The constant RX_HIGH_WATERMARK_THRESHOLD = RX_BUFFER_SIZE / 4 (shared.h line 24). -/
def RX_HIGH_WATERMARK_THRESHOLD : Nat := RX_BUFFER_SIZE / 4

/-- The constant PACKET_LENGTH_FIELD_SIZE (shared.h line 92). -/
def PACKET_LENGTH_FIELD_SIZE : Nat := 2

/-- A byte buffer: a total map from raw byte index to stored byte value. -/
def Buf : Type := Nat → Nat

/-- Single byte store `b[i] = v`; the value is reduced mod 256 as for a uint8
cell. -/
def bufSet (b : Buf) (i v : Nat) : Buf := fun j => if j = i then v % 256 else b j

/-- The raw 16-bit little-endian store `*(uint16_t*)(buf + off) = (uint16_t)v`
(host.c line 104, chip_emulator.c line 128): low byte at `off`, high byte at
the raw index `off + 1`, with no ring wrap applied to either index. -/
def store16 (b : Buf) (off v : Nat) : Buf :=
  bufSet (bufSet b off (v % 65536 % 256)) (off + 1) (v % 65536 / 256)

/-- Contiguous byte copy `memcpy(buf + off, d, |d|)`. -/
def memcpyAt (b : Buf) (off : Nat) : List Nat → Buf
  | [] => b
  | x :: xs => memcpyAt (bufSet b off x) (off + 1) xs

/-- Wrap-aware payload copy of host.c lines 108-116: `len` bytes of `d` are
written starting at ring offset `off` into a ring of size `n`, split into two
contiguous copies when `off + len` exceeds `n`. -/
def writeData (n : Nat) (b : Buf) (off len : Nat) (d : List Nat) : Buf :=
  if off + len > n then
    memcpyAt (memcpyAt b off ((d.take len).take (n - off))) 0 ((d.take len).drop (n - off))
  else
    memcpyAt b off (d.take len)

/-- Byte-wise fill loop of chip_emulator.c lines 132-145 (one arm): `cnt`
bytes drawn from the rand() stream `rnd` starting at draw index `base`,
stored at `off`, `off + 1`, ... with no wrap. -/
def fillBytes (b : Buf) (off : Nat) (rnd : Nat → Nat) (base cnt : Nat) : Buf :=
  match cnt with
  | 0 => b
  | c + 1 => fillBytes (bufSet b off (rnd base)) (off + 1) rnd (base + 1) c

/-- The seven bus-mapped CHIP registers (shared.h lines 32-42).  In simulation
mode every BUS_WRITE_REG (shared.h line 62) is a plain store into the
addressed slot and BUS_READ_REG (line 61) a plain load; the fields below are
the seven slots of `simulated_chip_registers` in address order. -/
structure Regs where
  tx_tail_ptr : Nat
  rx_head_ptr : Nat
  host_tx_head_pub : Nat
  host_rx_tail_pub : Nat
  int_status : Nat
  int_clear : Nat
  int_enable : Nat

/-- Combined simulation state: the two shared rings, each side's local indices
(host.c lines 7-8, chip_emulator.c lines 7-8) and the register file. -/
structure SysState where
  txBuf : Buf
  rxBuf : Buf
  host_tx_head : Nat
  host_rx_tail : Nat
  chip_tx_tail : Nat
  chip_rx_head : Nat
  regs : Regs

/-- The function host_chip_send_packet (host.c lines 74-134).  `len` is the
uint32 length argument and `data` the bytes behind the data pointer; the
result is the C return code paired with the post-call state.  The length
header is written with the unguarded 16-bit store of line 104, the payload
with the wrap-aware copy of lines 108-116, and the head advance and
publication of lines 119 and 126 use `total_write_len` computed in uint32
arithmetic at line 76. -/
def host_chip_send_packet (s : SysState) (data : List Nat) (len : Nat) :
    Int × SysState :=
  let total := (len + PACKET_LENGTH_FIELD_SIZE) % 4294967296
  if total > TX_BUFFER_SIZE then (-1, s)
  else
    let tail := s.regs.tx_tail_ptr
    let space :=
      if s.host_tx_head ≥ tail then TX_BUFFER_SIZE - (s.host_tx_head - tail) - 1
      else (tail - s.host_tx_head) - 1
    if space < total then (-2, s)
    else
      let b1 := store16 s.txBuf s.host_tx_head len
      let off := (s.host_tx_head + PACKET_LENGTH_FIELD_SIZE) % TX_BUFFER_SIZE
      let b2 := writeData TX_BUFFER_SIZE b1 off len data
      let head2 := (s.host_tx_head + total) % TX_BUFFER_SIZE
      (0, { s with txBuf := b2, host_tx_head := head2,
                   regs := { s.regs with host_tx_head_pub := head2 } })

/-- The wrap-aware TX header read of chip_emulator.c lines 58-66: when the two
header bytes straddle the ring end the low byte is taken at `t` and the high
byte at ring offset 0, otherwise a direct little-endian 16-bit load. -/
def txHeaderAt (b : Buf) (t : Nat) : Nat :=
  if t + PACKET_LENGTH_FIELD_SIZE > TX_BUFFER_SIZE then
    (b t % 256) + 256 * (b 0 % 256)
  else
    (b t % 256) + 256 * (b (t + 1) % 256)

/-- The function chip_emulator_process_tx (chip_emulator.c lines 33-100): read
the published HOST head, compute the available byte count with the branch
formula of lines 39-43, parse the frame header wrap-aware, consume one whole
frame when fully available, publish the advanced tail, and raise
TX_SPACE_AVAIL (bit 1, value 2) when the quantity `space_freed` of lines
88-93 reaches the low watermark. -/
def chip_emulator_process_tx (s : SysState) : SysState :=
  let head_pub := s.regs.host_tx_head_pub
  let avail :=
    if head_pub ≥ s.chip_tx_tail then head_pub - s.chip_tx_tail
    else TX_BUFFER_SIZE - s.chip_tx_tail + head_pub
  if 0 < avail then
    if avail < PACKET_LENGTH_FIELD_SIZE then s
    else
      let total := txHeaderAt s.txBuf s.chip_tx_tail + PACKET_LENGTH_FIELD_SIZE
      if avail < total then s
      else
        let tail2 := (s.chip_tx_tail + total) % TX_BUFFER_SIZE
        let s2 := { s with chip_tx_tail := tail2,
                           regs := { s.regs with tx_tail_ptr := tail2 } }
        let freed :=
          if tail2 ≥ head_pub then TX_BUFFER_SIZE - (tail2 - head_pub)
          else head_pub - tail2
        if freed ≥ TX_LOW_WATERMARK_THRESHOLD then
          { s2 with regs := { s2.regs with int_status := s2.regs.int_status ||| 2 } }
        else s2
  else s

/-- The function chip_raise_interrupt (chip_emulator.c lines 15-18): OR the
bit into the INT_STATUS register slot. -/
def chip_raise_interrupt (s : SysState) (bit : Nat) : SysState :=
  { s with regs := { s.regs with int_status := s.regs.int_status ||| bit } }

/-- The function chip_emulator_generate_rx (chip_emulator.c lines 103-171).
`r` models the rand() draw for the payload length (line 116 computes
`r % 100 + 10`); `rnd i` models the i-th rand() draw used for a payload byte.
The header store of line 128 is the same unguarded raw 16-bit store as on the
TX side. -/
def chip_emulator_generate_rx (s : SysState) (r : Nat) (rnd : Nat → Nat) :
    SysState :=
  let tail_pub := s.regs.host_rx_tail_pub
  let space :=
    if s.chip_rx_head ≥ tail_pub then
      RX_BUFFER_SIZE - (s.chip_rx_head - tail_pub) - 1
    else (tail_pub - s.chip_rx_head) - 1
  let plen := r % 100 + 10
  let total := plen + PACKET_LENGTH_FIELD_SIZE
  if space < total then s
  else
    let b1 := store16 s.rxBuf s.chip_rx_head plen
    let off := (s.chip_rx_head + PACKET_LENGTH_FIELD_SIZE) % RX_BUFFER_SIZE
    let b2 :=
      if off + plen > RX_BUFFER_SIZE then
        fillBytes (fillBytes b1 off rnd 0 (RX_BUFFER_SIZE - off)) 0 rnd
          (RX_BUFFER_SIZE - off) (plen - (RX_BUFFER_SIZE - off))
      else fillBytes b1 off rnd 0 plen
    let head2 := (s.chip_rx_head + total) % RX_BUFFER_SIZE
    let s2 := { s with rxBuf := b2, chip_rx_head := head2,
                       regs := { s.regs with rx_head_ptr := head2 } }
    let written :=
      if head2 ≥ tail_pub then head2 - tail_pub
      else RX_BUFFER_SIZE - tail_pub + head2
    if written ≥ RX_HIGH_WATERMARK_THRESHOLD then
      { s2 with regs := { s2.regs with int_status := s2.regs.int_status ||| 1 } }
    else s2

/-- The available byte count of host.c lines 173-178, computed by the branch
formula from the CHIP head register value and the local RX tail. -/
def availRx (head tail : Nat) : Nat :=
  if head ≥ tail then head - tail else RX_BUFFER_SIZE - tail + head

/-- The wrap-aware RX header read of host.c lines 186-195: when the two
header bytes straddle the ring end the low byte is taken at `t` and the high
byte at ring offset 0, otherwise a direct little-endian 16-bit load. -/
def rxHeaderAt (b : Buf) (t : Nat) : Nat :=
  if t + PACKET_LENGTH_FIELD_SIZE > RX_BUFFER_SIZE then
    (b t % 256) + 256 * (b 0 % 256)
  else
    (b t % 256) + 256 * (b (t + 1) % 256)

/-- The drain loop of host_chip_process_received_data (host.c lines 172-218),
with explicit fuel: while the tail differs from the CHIP head, stop on a
partial header (fewer than 2 bytes available) or a partial frame (fewer than
`L + 2` bytes available for the advertised length `L`), otherwise consume the
frame and advance the tail by `L + 2` modulo the ring size.  The re-read of
the head register at line 217 returns the same value in this sequential
model, so the head is a loop constant.  Fuel exhaustion yields `none`; the
theorems below show fuel `RX_BUFFER_SIZE` always suffices. -/
def drainLoopF (b : Buf) (head : Nat) : Nat → Nat → Option Nat
  | 0, _ => none
  | fuel + 1, tail =>
    if tail = head then some tail
    else
      let avail := availRx head tail
      if avail < PACKET_LENGTH_FIELD_SIZE then some tail
      else
        let total := rxHeaderAt b tail + PACKET_LENGTH_FIELD_SIZE
        if avail < total then some tail
        else drainLoopF b head fuel ((tail + total) % RX_BUFFER_SIZE)

/-- The function host_chip_process_received_data (host.c lines 164-228): run
the drain loop from the local RX tail against the published CHIP head, then
publish the final tail to HOST_RX_TAIL_PUB (line 222) and store it as the
local tail (line 226).  The `getD` default is never taken for in-range
states (drain loop termination, proved below). -/
def host_chip_process_received_data (s : SysState) : SysState :=
  let head := s.regs.rx_head_ptr
  let t2 := (drainLoopF s.rxBuf head RX_BUFFER_SIZE s.host_rx_tail).getD s.host_rx_tail
  { s with host_rx_tail := t2,
           regs := { s.regs with host_rx_tail_pub := t2 } }

/-- The function host_chip_irq_handler (host.c lines 140-161): read
INT_STATUS once; for each pending bit write that bit to the INT_CLEAR slot
(a plain register store in simulation mode) and perform its action; the
RX_DATA_READY action is the drain (line 147). -/
def host_chip_irq_handler (s : SysState) : SysState :=
  let status := s.regs.int_status
  let s1 :=
    if status &&& 1 ≠ 0 then
      host_chip_process_received_data
        { s with regs := { s.regs with int_clear := 1 } }
    else s
  let s2 :=
    if status &&& 2 ≠ 0 then { s1 with regs := { s1.regs with int_clear := 2 } }
    else s1
  if status &&& 4 ≠ 0 then { s2 with regs := { s2.regs with int_clear := 4 } }
  else s2

/-- The all-zero register file, the state of `simulated_chip_registers` after
host.c lines 49-51. -/
def zeroRegs : Regs := ⟨0, 0, 0, 0, 0, 0, 0⟩

/-- The all-zero state: zeroed shared RAM (host.c line 274) and zeroed local
indices and registers. -/
def zeroState : SysState := ⟨fun _ => 0, fun _ => 0, 0, 0, 0, 0, zeroRegs⟩

/-- The function host_chip_driver_init (host.c lines 41-70): zero the local
indices and the register slots, write 0xFFFFFFFF to the INT_CLEAR slot,
publish both HOST indices as zero, and enable the three interrupt bits. -/
def host_chip_driver_init (s : SysState) : SysState :=
  { s with host_tx_head := 0, host_rx_tail := 0,
           regs := { zeroRegs with int_clear := 4294967295,
                                   int_enable := 7 } }

/-- The function chip_emulator_init (chip_emulator.c lines 21-30): zero the
CHIP local indices and publish them. -/
def chip_emulator_init (s : SysState) : SysState :=
  { s with chip_tx_tail := 0, chip_rx_head := 0,
           regs := { s.regs with tx_tail_ptr := 0, rx_head_ptr := 0 } }

/-- The initial state of the simulation, after the two init calls performed at
the top of host_main_loop (host.c lines 238-239). -/
def initState : SysState := chip_emulator_init (host_chip_driver_init zeroState)

/-- One protocol operation of either side, with its external inputs. -/
inductive Op where
  | send (data : List Nat) (len : Nat)
  | drain
  | processTx
  | generateRx (r : Nat) (rnd : Nat → Nat)

/-- The state transformer of each operation. -/
def applyOp : Op → SysState → SysState
  | .send d l, s => (host_chip_send_packet s d l).2
  | .drain, s => host_chip_process_received_data s
  | .processTx, s => chip_emulator_process_tx s
  | .generateRx r rnd, s => chip_emulator_generate_rx s r rnd

/-- Every head and tail index, local or published, lies inside its ring. -/
abbrev InRange (s : SysState) : Prop :=
  s.host_tx_head < TX_BUFFER_SIZE ∧ s.host_rx_tail < RX_BUFFER_SIZE ∧
  s.chip_tx_tail < TX_BUFFER_SIZE ∧ s.chip_rx_head < RX_BUFFER_SIZE ∧
  s.regs.tx_tail_ptr < TX_BUFFER_SIZE ∧ s.regs.rx_head_ptr < RX_BUFFER_SIZE ∧
  s.regs.host_tx_head_pub < TX_BUFFER_SIZE ∧ s.regs.host_rx_tail_pub < RX_BUFFER_SIZE

/-- The used count of the TX ring at its published indices,
`(head - tail) mod N` in modular form. -/
def usedTxPub (s : SysState) : Nat :=
  (s.regs.host_tx_head_pub + TX_BUFFER_SIZE - s.regs.tx_tail_ptr) % TX_BUFFER_SIZE

/-- The used count of the RX ring at its published indices. -/
def usedRxPub (s : SysState) : Nat :=
  (s.regs.rx_head_ptr + RX_BUFFER_SIZE - s.regs.host_rx_tail_pub) % RX_BUFFER_SIZE

/-- Frame-boundary reachability in the RX ring: the offsets reachable from a
start offset by repeatedly skipping one whole frame as delimited by the
advertised (wrap-aware) header at the current offset. -/
inductive FrameReach (b : Buf) (t0 : Nat) : Nat → Prop
  | refl : FrameReach b t0 t0
  | step (t : Nat) : FrameReach b t0 t →
      FrameReach b t0 ((t + (rxHeaderAt b t + PACKET_LENGTH_FIELD_SIZE)) % RX_BUFFER_SIZE)

/-- Concrete TX-side state with the frame start at ring offset 4095 = N - 1:
head and published head at 4095, CHIP tail and its register at 4095 (ring
logically empty), and a stale non-zero byte left at ring offset 0 by earlier
traffic. -/
def s1 : SysState :=
  ⟨fun i => if i = 0 then 1 else 0, fun _ => 0, 4095, 0, 4095, 0,
   ⟨4095, 0, 4095, 0, 0, 0, 7⟩⟩

/-- Concrete TX-side state reached from reset after 1365 rounds in which the
HOST sends a one-byte payload frame (header bytes 1, 0 and payload byte 171,
three ring bytes per frame) and the CHIP consumes it: both heads and tails sit
at 3 * 1365 = 4095 and the ring bytes repeat the period-3 frame pattern. -/
def s2c : SysState :=
  ⟨fun i => if i % 3 = 0 then 1 else if i % 3 = 1 then 0 else 171, fun _ => 0,
   4095, 0, 4095, 0, ⟨4095, 0, 4095, 0, 0, 0, 7⟩⟩

/-- Continuation of the `s2c` scenario: first a successful one-byte send whose
header starts at offset 4095, then `k` further successful 20-byte sends. -/
def c2Chain : Nat → SysState
  | 0 => (host_chip_send_packet s2c [171] 1).2
  | k + 1 => (host_chip_send_packet (c2Chain k) (List.replicate 20 9) 20).2

/-- Concrete RX-side state whose frame header at tail 0 advertises the payload
length 4094 = 254 + 256 * 15, larger than RX_BUFFER_SIZE - 3, with the CHIP
head register at 2. -/
def s6 : SysState :=
  ⟨fun _ => 0, fun i => if i = 0 then 254 else if i = 1 then 15 else 0,
   0, 0, 0, 2, ⟨0, 2, 0, 0, 0, 0, 7⟩⟩

/-- Concrete TX-side state for the CHIP consumer: a complete frame with
payload length 8 at tail 0 (header bytes 8, 0), and the published HOST head at
3995, so the ring holds 3995 used bytes. -/
def s7 : SysState :=
  ⟨fun i => if i = 0 then 8 else 0, fun _ => 0, 3995, 0, 0, 0,
   ⟨0, 0, 3995, 0, 0, 0, 7⟩⟩

/-- Concrete TX-side state with an empty ring and both TX indices at 4095,
used to exhibit the raw header store past the ring end. -/
def s9 : SysState :=
  ⟨fun _ => 0, fun _ => 0, 4095, 0, 4095, 0, ⟨4095, 0, 4095, 0, 0, 0, 7⟩⟩

/-- Helper: the branch-computed free-space expression of host.c lines 88-92
equals the modular formula `N - 1 - ((head - tail) mod N)` of the spec for
in-range indices. -/
theorem spaceBranch_eq (hd tl : Nat) (h1 : hd < TX_BUFFER_SIZE)
    (h2 : tl < TX_BUFFER_SIZE) :
    (if hd ≥ tl then TX_BUFFER_SIZE - (hd - tl) - 1 else (tl - hd) - 1)
      = TX_BUFFER_SIZE - 1 - ((hd + TX_BUFFER_SIZE - tl) % TX_BUFFER_SIZE) := by
  simp only [TX_BUFFER_SIZE] at *
  split_ifs <;> omega

/-- Helper: consuming a fully available frame of size `total` decreases the
available byte count by exactly `total`. -/
theorem availRx_step (head tail total : Nat) (hh : head < RX_BUFFER_SIZE)
    (ht : tail < RX_BUFFER_SIZE) (_hne : tail ≠ head) (h2 : 2 ≤ total)
    (hle : total ≤ availRx head tail) :
    availRx head ((tail + total) % RX_BUFFER_SIZE) = availRx head tail - total := by
  simp only [availRx, RX_BUFFER_SIZE] at *
  split_ifs at * <;> omega

/-- Helper: the available byte count is below the ring size for in-range
indices. -/
theorem availRx_lt (head tail : Nat) (hh : head < RX_BUFFER_SIZE)
    (ht : tail < RX_BUFFER_SIZE) : availRx head tail < RX_BUFFER_SIZE := by
  simp only [availRx, RX_BUFFER_SIZE] at *
  split_ifs <;> omega

/-- Helper: with fuel exceeding the available byte count the drain loop exits
normally. -/
theorem drainLoopF_isSome_of_fuel (b : Buf) (head : Nat)
    (hh : head < RX_BUFFER_SIZE) :
    ∀ fuel tail, tail < RX_BUFFER_SIZE → availRx head tail < fuel →
      (drainLoopF b head fuel tail).isSome := by
  intro fuel
  induction fuel with
  | zero => intro tail _ hav; omega
  | succ f ih =>
    intro tail ht hav
    simp only [drainLoopF]
    split_ifs with h1 h2 h3
    · simp
    · simp
    · simp
    · apply ih
      · exact Nat.mod_lt _ (by decide)
      · have hP : PACKET_LENGTH_FIELD_SIZE = 2 := rfl
        have hstep := availRx_step head tail
          (rxHeaderAt b tail + PACKET_LENGTH_FIELD_SIZE) hh ht h1
          (by omega) (by omega)
        omega

/-- Helper: the drain loop only ever returns in-range tails from in-range
tails. -/
theorem drainLoopF_lt (b : Buf) (head : Nat) :
    ∀ fuel tail t', tail < RX_BUFFER_SIZE →
      drainLoopF b head fuel tail = some t' → t' < RX_BUFFER_SIZE := by
  intro fuel
  induction fuel with
  | zero => intro tail t' _ h; simp [drainLoopF] at h
  | succ f ih =>
    intro tail t' ht h
    simp only [drainLoopF] at h
    split_ifs at h
    · cases h; exact ht
    · cases h; exact ht
    · cases h; exact ht
    · exact ih _ _ (Nat.mod_lt _ (by decide)) h

/-- Helper: frame-boundary reachability is transitive. -/
theorem frameReach_trans {b : Buf} {x y z : Nat} (h1 : FrameReach b x y)
    (h2 : FrameReach b y z) : FrameReach b x z := by
  induction h2 with
  | refl => exact h1
  | step t _ ih => exact FrameReach.step t ih

/-- Helper: any tail the drain loop returns is a frame boundary reachable from
the start tail, and satisfies one of the loop's exit conditions. -/
theorem drainLoopF_reach (b : Buf) (head : Nat) :
    ∀ fuel tail t', drainLoopF b head fuel tail = some t' →
      FrameReach b tail t' ∧
      (t' = head ∨ availRx head t' < PACKET_LENGTH_FIELD_SIZE ∨
        availRx head t' < rxHeaderAt b t' + PACKET_LENGTH_FIELD_SIZE) := by
  intro fuel
  induction fuel with
  | zero => intro tail t' h; simp [drainLoopF] at h
  | succ f ih =>
    intro tail t' h
    simp only [drainLoopF] at h
    split_ifs at h with h1 h2 h3
    · cases h; exact ⟨FrameReach.refl, Or.inl h1⟩
    · cases h; exact ⟨FrameReach.refl, Or.inr (Or.inl h2)⟩
    · cases h; exact ⟨FrameReach.refl, Or.inr (Or.inr h3)⟩
    · obtain ⟨hr, hc⟩ := ih _ _ h
      exact ⟨frameReach_trans (FrameReach.step tail FrameReach.refl) hr, hc⟩

/-- Helper: host_chip_send_packet keeps all indices in range. -/
theorem send_inRange (s : SysState) (d : List Nat) (len : Nat)
    (h : InRange s) : InRange (host_chip_send_packet s d len).2 := by
  obtain ⟨h1, h2, h3, h4, h5, h6, h7, h8⟩ := h
  simp only [host_chip_send_packet]
  split_ifs <;>
    first
      | exact ⟨h1, h2, h3, h4, h5, h6, h7, h8⟩
      | exact ⟨Nat.mod_lt _ (by decide), h2, h3, h4, h5, h6,
          Nat.mod_lt _ (by decide), h8⟩

/-- Helper: chip_emulator_process_tx keeps all indices in range. -/
theorem processTx_inRange (s : SysState) (h : InRange s) :
    InRange (chip_emulator_process_tx s) := by
  obtain ⟨h1, h2, h3, h4, h5, h6, h7, h8⟩ := h
  simp only [chip_emulator_process_tx]
  split_ifs <;>
    first
      | exact ⟨h1, h2, h3, h4, h5, h6, h7, h8⟩
      | exact ⟨h1, h2, Nat.mod_lt _ (by decide), h4, Nat.mod_lt _ (by decide),
          h6, h7, h8⟩

/-- Helper: chip_emulator_generate_rx keeps all indices in range. -/
theorem generateRx_inRange (s : SysState) (r : Nat) (rnd : Nat → Nat)
    (h : InRange s) : InRange (chip_emulator_generate_rx s r rnd) := by
  obtain ⟨h1, h2, h3, h4, h5, h6, h7, h8⟩ := h
  simp only [chip_emulator_generate_rx]
  split_ifs <;>
    first
      | exact ⟨h1, h2, h3, h4, h5, h6, h7, h8⟩
      | exact ⟨h1, h2, h3, Nat.mod_lt _ (by decide), h5,
          Nat.mod_lt _ (by decide), h7, h8⟩

/-- Helper: host_chip_process_received_data keeps all indices in range. -/
theorem drain_inRange (s : SysState) (h : InRange s) :
    InRange (host_chip_process_received_data s) := by
  obtain ⟨h1, h2, h3, h4, h5, h6, h7, h8⟩ := h
  have ht2 : (drainLoopF s.rxBuf s.regs.rx_head_ptr RX_BUFFER_SIZE
      s.host_rx_tail).getD s.host_rx_tail < RX_BUFFER_SIZE := by
    cases hc : drainLoopF s.rxBuf s.regs.rx_head_ptr RX_BUFFER_SIZE s.host_rx_tail with
    | none => simpa using h2
    | some t' =>
      simpa using drainLoopF_lt s.rxBuf s.regs.rx_head_ptr RX_BUFFER_SIZE
        s.host_rx_tail t' h2 hc
  simp only [host_chip_process_received_data]
  exact ⟨h1, ht2, h3, h4, h5, h6, h7, ht2⟩

set_option maxRecDepth 100000 in
set_option maxHeartbeats 1000000 in
/-- C1: the framing round trip fails at the wrap offset o = N - 1.  From the
state `s1` (frame start at offset 4095, stale byte 1 at ring offset 0) the
send of the 3-byte payload [10, 20, 30] succeeds, but the consumer's
wrap-aware header read at 4095 reconstructs the advertised length
3 + 256 * 1 = 259 instead of 3, because line 104 of host.c stores the high
header byte at the raw index 4096 outside the ring instead of at ring
offset 0. -/
theorem tx_header_wrap_roundtrip_fails :
    (host_chip_send_packet s1 [10, 20, 30] 3).1 = 0 ∧
    txHeaderAt (host_chip_send_packet s1 [10, 20, 30] 3).2.txBuf
      (TX_BUFFER_SIZE - 1) = 259 ∧
    (259 : Nat) ≠ 3 := by decide

set_option maxRecDepth 100000 in
set_option maxHeartbeats 1000000 in
/-- C2: exact FIFO delivery fails.  From the reachable state `s2c` a one-byte
send whose header starts at offset 4095 succeeds, as do twelve further
20-byte sends, yet the consumer then parses the advertised length 257 at
offset 4095 (the out-of-ring header store left ring byte 0 holding a stale
1), consumes 259 bytes spanning the one-byte frame plus most of the next
frame as a single frame, and advances its tail to 258 - so no consumed frame
equals any successfully sent payload (lengths 1 and 20). -/
theorem send_ok_frame_never_delivered :
    (host_chip_send_packet s2c [171] 1).1 = 0 ∧
    (∀ k : Fin 12,
      (host_chip_send_packet (c2Chain k) (List.replicate 20 9) 20).1 = 0) ∧
    txHeaderAt (c2Chain 12).txBuf (TX_BUFFER_SIZE - 1) = 257 ∧
    (chip_emulator_process_tx (c2Chain 12)).chip_tx_tail = 258 ∧
    (257 : Nat) ≠ 1 ∧ (257 : Nat) ≠ 20 := by decide

set_option maxRecDepth 100000 in
set_option maxHeartbeats 1000000 in
/-- C3 counterexample: for the uint32 length 4294967295 the 32-bit
computation of `len + 2` wraps to 1, so host_chip_send_packet does not return
TooLarge although L + 2 > TX_BUFFER_SIZE. -/
theorem send_packet_toolarge_overflow_cex :
    (host_chip_send_packet initState [] 4294967295).1 ≠ -1 ∧
    4294967295 + PACKET_LENGTH_FIELD_SIZE > TX_BUFFER_SIZE := by decide

/-- C3 (amended): for in-range indices, host_chip_send_packet returns -1
exactly when `(L + 2) mod 2^32` exceeds TX_BUFFER_SIZE (equivalently, when
L + 2 > TX_BUFFER_SIZE and L ≤ 2^32 - 3); otherwise it returns -2 exactly
when the free space `N - 1 - ((head - tail) mod N)`, computed from the peer
tail register, is below `(L + 2) mod 2^32`; on either error the entire state
(ring bytes, local head, registers) is unchanged; otherwise it returns 0. -/
theorem send_packet_error_contract (s : SysState) (data : List Nat) (len : Nat)
    (h1 : s.host_tx_head < TX_BUFFER_SIZE)
    (h2 : s.regs.tx_tail_ptr < TX_BUFFER_SIZE) :
    ((host_chip_send_packet s data len).1 = -1 ↔
      (len + PACKET_LENGTH_FIELD_SIZE) % 4294967296 > TX_BUFFER_SIZE) ∧
    ((host_chip_send_packet s data len).1 = -2 ↔
      ((len + PACKET_LENGTH_FIELD_SIZE) % 4294967296 ≤ TX_BUFFER_SIZE ∧
        TX_BUFFER_SIZE - 1 -
            ((s.host_tx_head + TX_BUFFER_SIZE - s.regs.tx_tail_ptr) % TX_BUFFER_SIZE)
          < (len + PACKET_LENGTH_FIELD_SIZE) % 4294967296)) ∧
    ((host_chip_send_packet s data len).1 ≠ 0 →
      (host_chip_send_packet s data len).2 = s) ∧
    ((host_chip_send_packet s data len).1 = 0 ∨
      (host_chip_send_packet s data len).1 = -1 ∨
      (host_chip_send_packet s data len).1 = -2) := by
  have hspace := spaceBranch_eq s.host_tx_head s.regs.tx_tail_ptr h1 h2
  simp only [host_chip_send_packet]
  rw [hspace]
  split_ifs with c1 c2
  · exact ⟨iff_of_true rfl c1,
      iff_of_false (by norm_num) (fun hx => by omega),
      fun _ => rfl, Or.inr (Or.inl rfl)⟩
  · exact ⟨iff_of_false (by norm_num) c1,
      iff_of_true rfl ⟨by omega, c2⟩,
      fun _ => rfl, Or.inr (Or.inr rfl)⟩
  · exact ⟨iff_of_false (by norm_num) c1,
      iff_of_false (by norm_num) (fun hx => absurd hx.2 c2),
      fun h0 => absurd rfl h0, Or.inl rfl⟩

/-- C3 witness: at the initial state a small send satisfies the amended
contract's trichotomy. -/
theorem send_packet_error_contract_witness :
    initState.host_tx_head < TX_BUFFER_SIZE ∧
    initState.regs.tx_tail_ptr < TX_BUFFER_SIZE ∧
    ((host_chip_send_packet initState [5, 6] 2).1 = 0 ∨
      (host_chip_send_packet initState [5, 6] 2).1 = -1 ∨
      (host_chip_send_packet initState [5, 6] 2).1 = -2) :=
  ⟨by decide, by decide,
    (send_packet_error_contract initState [5, 6] 2 (by decide) (by decide)).2.2.2⟩

/-- C4: every operation of either side - send, drain, CHIP TX consumption,
CHIP RX generation - maps a state whose head and tail indices (local and
published) all lie in [0, N) to one whose indices all lie in [0, N), and
afterwards the used counts `(head - tail) mod N` of both rings lie in
[0, N - 1]. -/
theorem ops_preserve_index_ranges (op : Op) (s : SysState) (h : InRange s) :
    InRange (applyOp op s) ∧
    usedTxPub (applyOp op s) ≤ TX_BUFFER_SIZE - 1 ∧
    usedRxPub (applyOp op s) ≤ RX_BUFFER_SIZE - 1 := by
  refine ⟨?_, ?_, ?_⟩
  · cases op with
    | send d l => exact send_inRange s d l h
    | drain => exact drain_inRange s h
    | processTx => exact processTx_inRange s h
    | generateRx r rnd => exact generateRx_inRange s r rnd h
  · simp only [usedTxPub, TX_BUFFER_SIZE]; omega
  · simp only [usedRxPub, RX_BUFFER_SIZE]; omega

/-- C4 witness: the initial state is in range and a CHIP TX-consumption step
preserves the invariant there. -/
theorem ops_preserve_index_ranges_witness :
    InRange initState ∧
    (InRange (applyOp Op.processTx initState) ∧
      usedTxPub (applyOp Op.processTx initState) ≤ TX_BUFFER_SIZE - 1 ∧
      usedRxPub (applyOp Op.processTx initState) ≤ RX_BUFFER_SIZE - 1) :=
  ⟨by decide, ops_preserve_index_ranges Op.processTx initState (by decide)⟩

/-- C5: whatever tail the drain loop of host_chip_process_received_data
returns is a frame boundary reachable from the starting tail by whole-frame
steps, and it satisfies one of the loop's exit conditions; moreover, when
fewer than 2 bytes are available (partial header) or fewer than L + 2 bytes
for the advertised length L (partial frame), the loop stops at once without
advancing the tail. -/
theorem drain_respects_frame_boundaries (b : Buf) (head fuel tail t' : Nat)
    (hres : drainLoopF b head fuel tail = some t') :
    FrameReach b tail t' ∧
    (t' = head ∨ availRx head t' < PACKET_LENGTH_FIELD_SIZE ∨
      availRx head t' < rxHeaderAt b t' + PACKET_LENGTH_FIELD_SIZE) ∧
    (tail ≠ head → availRx head tail < PACKET_LENGTH_FIELD_SIZE → t' = tail) ∧
    (tail ≠ head → PACKET_LENGTH_FIELD_SIZE ≤ availRx head tail →
      availRx head tail < rxHeaderAt b tail + PACKET_LENGTH_FIELD_SIZE →
      t' = tail) := by
  refine ⟨(drainLoopF_reach b head fuel tail t' hres).1,
    (drainLoopF_reach b head fuel tail t' hres).2, ?_, ?_⟩
  · intro hne hlt
    cases fuel with
    | zero => simp [drainLoopF] at hres
    | succ f =>
      simp only [drainLoopF, if_neg hne, if_pos hlt] at hres
      exact (Option.some_injective _ hres).symm
  · intro hne hge hlt
    cases fuel with
    | zero => simp [drainLoopF] at hres
    | succ f =>
      have hge' : ¬ availRx head tail < PACKET_LENGTH_FIELD_SIZE := by omega
      simp only [drainLoopF, if_neg hne, if_neg hge', if_pos hlt] at hres
      exact (Option.some_injective _ hres).symm

/-- C5 witness: with one available byte (a partial header) the loop stops at
the starting tail, which is trivially a frame boundary. -/
theorem drain_respects_frame_boundaries_witness :
    drainLoopF (fun _ => 0) 1 1 0 = some 0 ∧ FrameReach (fun _ => 0) 0 0 :=
  ⟨rfl, (drain_respects_frame_boundaries (fun _ => 0) 1 1 0 0 rfl).1⟩

set_option maxRecDepth 100000 in
set_option maxHeartbeats 1000000 in
/-- C6: at the state `s6` the advertised payload length 4094 exceeds
RX_BUFFER_SIZE - 3, and host_chip_process_received_data stops draining
without advancing or re-publishing a changed tail; the INT_STATUS register
stays 0 and no error whatsoever is surfaced (the code has no
MalformedFrame/on_error path and treats the frame as forever partial). -/
theorem oversize_length_stalls_without_error :
    rxHeaderAt s6.rxBuf 0 = 4094 ∧
    4094 > RX_BUFFER_SIZE - 3 ∧
    (host_chip_process_received_data s6).host_rx_tail = 0 ∧
    (host_chip_process_received_data s6).regs.host_rx_tail_pub = 0 ∧
    (host_chip_process_received_data s6).regs.int_status = 0 := by decide

set_option maxRecDepth 100000 in
set_option maxHeartbeats 1000000 in
/-- C7: at the state `s7` (3995 used bytes, one 10-byte frame consumed) the
CHIP raises TX_SPACE_AVAIL (INT_STATUS becomes 2) although the
post-consumption free space per the spec formula
`N - 1 - ((head - tail) mod N)` is 110, far below TX_LOW_WATERMARK_THRESHOLD:
lines 88-93 of chip_emulator.c compute the used count, not the freed
space. -/
theorem tx_watermark_raised_below_threshold :
    (chip_emulator_process_tx s7).regs.int_status = 2 ∧
    (chip_emulator_process_tx s7).chip_tx_tail = 10 ∧
    TX_BUFFER_SIZE - 1 -
        ((s7.regs.host_tx_head_pub + TX_BUFFER_SIZE -
            (chip_emulator_process_tx s7).chip_tx_tail) % TX_BUFFER_SIZE)
      < TX_LOW_WATERMARK_THRESHOLD := by decide

set_option maxRecDepth 100000 in
set_option maxHeartbeats 1000000 in
/-- C8: after the CHIP raises bit 0 of INT_STATUS, the HOST IRQ handler
writes that bit to INT_CLEAR (the write lands in the INT_CLEAR register
slot), yet bit 0 remains pending in INT_STATUS: nothing in the code masks
written 1-bits out of INT_STATUS, contrary to the write-1-to-clear
contract. -/
theorem int_clear_write_does_not_clear_status :
    (chip_raise_interrupt initState 1).regs.int_status = 1 ∧
    (host_chip_irq_handler (chip_raise_interrupt initState 1)).regs.int_clear = 1 ∧
    (host_chip_irq_handler (chip_raise_interrupt initState 1)).regs.int_status &&& 1
      = 1 := by decide

set_option maxRecDepth 100000 in
set_option maxHeartbeats 1000000 in
/-- C9: a successful send whose frame starts at head offset N - 1 stores the
high byte of the 16-bit length header at the raw index N = TX_BUFFER_SIZE,
outside the ring's index range [0, N): the byte at raw index 4096 changes
from 0 to 1 (the high byte of the length 300). -/
theorem send_packet_writes_out_of_bounds :
    (host_chip_send_packet s9 (List.replicate 300 7) 300).1 = 0 ∧
    s9.host_tx_head = TX_BUFFER_SIZE - 1 ∧
    s9.txBuf TX_BUFFER_SIZE = 0 ∧
    (host_chip_send_packet s9 (List.replicate 300 7) 300).2.txBuf TX_BUFFER_SIZE
      = 1 := by decide

/-- C10: for any RX ring contents and any in-range head register value and
starting tail, the drain loop of host_chip_process_received_data terminates:
with fuel RX_BUFFER_SIZE it always reaches one of its exit conditions, since
each consuming iteration advances the tail by a frame length of at least 2
and at most the available byte count. -/
theorem drain_loop_terminates (b : Buf) (head tail : Nat)
    (hh : head < RX_BUFFER_SIZE) (ht : tail < RX_BUFFER_SIZE) :
    (drainLoopF b head RX_BUFFER_SIZE tail).isSome :=
  drainLoopF_isSome_of_fuel b head hh RX_BUFFER_SIZE tail ht
    (availRx_lt head tail hh ht)

/-- C10 witness: the loop exits at the empty ring. -/
theorem drain_loop_terminates_witness :
    (0 : Nat) < RX_BUFFER_SIZE ∧
    (drainLoopF (fun _ => 0) 0 RX_BUFFER_SIZE 0).isSome :=
  ⟨by decide, drain_loop_terminates (fun _ => 0) 0 0 (by decide) (by decide)⟩
